import Mathlib

/-!
Shallow embedding of `src/backend/app.py` (MinScrip): the resilient fetcher,
the two paginators, the inactivity enricher with its bounded storage scan,
the JIRA productivity aggregators, and the spreadsheet threshold/ranking
stage, together with the request-validation behaviour of the three
endpoints.

Machine-level conventions of the embedding:
* Python strings are Lean `String`; string algorithms of the source
  (lower-casing, substring test, `split`, `int()` parsing) are embedded as
  explicit functions on `List Char` so that every operation is executable
  and kernel-reducible.
* Python `float` arithmetic on the small report quantities is embedded as
  exact rational arithmetic (`ℚ`); `round(x, n)` is embedded as
  round-half-to-even at `n` decimal digits, matching Python's rounding
  rule at rational precision.
* `datetime` instants are embedded as integer UTC seconds, `date`s as
  year/month/day triples; `timedelta.days` is floor division by 86400.
* A fallible network call is a value of `NetResult`: either a transport
  exception, or a status code with a body whose JSON decoding may fail.
* `while True` loops are embedded with an explicit fuel parameter;
  `none` marks fuel exhaustion (never reached under the claims'
  hypotheses).
-/

namespace MinScrip

/-! ### Generic helpers: rounding, lookup, sorting -/

/-- ASCII lower-casing of one character, as done by `str.lower` on the
status-category strings of the source (all of which are ASCII). -/
def lowerChar (c : Char) : Char :=
  if 65 ≤ c.toNat ∧ c.toNat ≤ 90 then Char.ofNat (c.toNat + 32) else c

/-- `s.lower()` at the character-list level. -/
def lowerStr (s : String) : List Char :=
  s.data.map lowerChar

/-- Whether `pat` is a prefix of `text` (Boolean, structural). -/
def isPrefixOfB : List Char → List Char → Bool
  | [], _ => true
  | _ :: _, [] => false
  | a :: as, b :: bs => a == b && isPrefixOfB as bs

/-- Python's `pat in text` substring test. -/
def containsSeq (pat : List Char) : List Char → Bool
  | [] => isPrefixOfB pat []
  | c :: rest => isPrefixOfB pat (c :: rest) || containsSeq pat rest

/-- Python `str.split(sep)` for a one-character separator. -/
def splitOnChar (sep : Char) : List Char → List (List Char)
  | [] => [[]]
  | c :: cs =>
    let r := splitOnChar sep cs
    if c == sep then [] :: r
    else
      match r with
      | [] => [[c]]
      | p :: ps => (c :: p) :: ps

/-- Decimal digit value of a character, if any. -/
def digitVal (c : Char) : Option Nat :=
  if 48 ≤ c.toNat ∧ c.toNat ≤ 57 then some (c.toNat - 48) else none

/-- The ASCII whitespace characters Python strips around an `int()`
argument.  (Python also strips the other Unicode space characters; only
ASCII input is modelled.) -/
def isSpaceB (c : Char) : Bool :=
  c == ' ' || c == '\t' || c == '\n' || c == '\r' || c == '\x0b' || c == '\x0c'

/-- Strip leading and trailing whitespace, as `int()` does. -/
def stripSpaces (l : List Char) : List Char :=
  ((l.dropWhile isSpaceB).reverse.dropWhile isSpaceB).reverse

/-- The tail of Python's decimal-integer grammar after its first digit:
`(['_'] digit)*` — a single underscore is allowed only between two
digits. -/
def parseDigitsU : List Char → Nat → Option Nat
  | [], acc => some acc
  | '_' :: rest, acc =>
    match rest with
    | c :: rest2 =>
      match digitVal c with
      | some d => parseDigitsU rest2 (acc * 10 + d)
      | none => none
    | [] => none
  | c :: rest, acc =>
    match digitVal c with
    | some d => parseDigitsU rest (acc * 10 + d)
    | none => none

/-- An unsigned Python decimal numeral: at least one digit, with optional
single underscores between digits. -/
def parseNatU : List Char → Option Nat
  | [] => none
  | c :: rest =>
    match digitVal c with
    | some d => parseDigitsU rest d
    | none => none

/-- Python `int(s)` on a decimal string: optional surrounding whitespace,
an optional single `+` or `-` sign, then an underscore-separated digit
run.  (Non-ASCII digits are outside this embedding.) -/
def parseIntChars (l : List Char) : Option Int :=
  match stripSpaces l with
  | '-' :: rest => (parseNatU rest).map (fun n => -(n : Int))
  | '+' :: rest => (parseNatU rest).map (fun n => (n : Int))
  | rest => (parseNatU rest).map (fun n => (n : Int))

/-- Floor of a rational, computed from its reduced numerator/denominator. -/
def floorQ (q : ℚ) : ℤ := Int.fdiv q.num q.den

/-- Round-half-to-even to an integer, Python's `round` rule at rational
precision. -/
def roundHalfEven (q : ℚ) : ℤ :=
  let f := floorQ q
  let r := q - (f : ℚ)
  if r < 1/2 then f
  else if 1/2 < r then f + 1
  else if f % 2 = 0 then f else f + 1

/-- Python `round(x, 1)`. -/
def round1 (q : ℚ) : ℚ := (roundHalfEven (q * 10) : ℚ) / 10

/-- Python `round(x, 2)`. -/
def round2 (q : ℚ) : ℚ := (roundHalfEven (q * 100) : ℚ) / 100

/-- First value bound to `k` in an association list (Python dict lookup). -/
def lookupA {α : Type} (k : String) : List (String × α) → Option α
  | [] => none
  | (k1, v) :: rest => if k1 = k then some v else lookupA k rest

/-- Insertion into an ascending sorted list of rationals (used only to
compute percentiles, which sort their input ascending). -/
def insertAsc (x : ℚ) : List ℚ → List ℚ
  | [] => [x]
  | y :: ys => if x ≤ y then x :: y :: ys else y :: insertAsc x ys

/-- Ascending insertion sort on rationals. -/
def sortAsc : List ℚ → List ℚ
  | [] => []
  | x :: xs => insertAsc x (sortAsc xs)

/-- Stable descending insertion: `x` is placed after every element that is
strictly greater (according to `gt`), hence before every element that ties
with it.  This is the standard model of the stable sorts the source uses
(Python `list.sort`, pandas multi-column `sort_values`, both stable). -/
def insertIfGt {α : Type} (gt : α → α → Bool) (x : α) : List α → List α
  | [] => [x]
  | y :: ys => if gt y x then y :: insertIfGt gt x ys else x :: y :: ys

/-- Stable descending insertion sort. -/
def stableSortDesc {α : Type} (gt : α → α → Bool) : List α → List α
  | [] => []
  | x :: xs => insertIfGt gt x (stableSortDesc gt xs)

/-! ### `parse_duration` (app.py lines 20–25) -/

/-- The body of `parse_duration`'s `try`: split on `":"`, convert the three
parts with `int`, and combine; `none` is the exceptional exit. -/
def parse_duration_body (s : String) : Option Int :=
  match splitOnChar ':' s.data with
  | [a, b, c] =>
    match parseIntChars a, parseIntChars b, parseIntChars c with
    | some h, some m, some sec => some (h * 3600 + m * 60 + sec)
    | _, _, _ => none
  | _ => none

/-- `parse_duration` (lines 20–25): the `except` clause maps every failure
to `0`.  The argument is the `str(...)` form of the cell value. -/
def parse_duration (s : String) : Int :=
  (parse_duration_body s).getD 0

/-! ### Resilient fetcher and the two page fetchers (lines 136–144, 250–252) -/

/-- Outcome of one `requests` call: a transport-level exception, or a
response carrying a status code and a body whose JSON decoding can fail
(`Except.error ()`). -/
inductive NetResult (α : Type) where
  | exn : NetResult α
  | resp (status : Nat) (body : Except Unit α) : NetResult α

/-- `safe_get_json` (lines 136–144): decode and return the body on status
200; on any other status, any transport failure, or a decode failure,
return the empty object `emptyObj`.  Its Lean type is total: no exception
escapes. -/
def safe_get_json {α : Type} (emptyObj : α) (net : NetResult α) : α :=
  match net with
  | NetResult.exn => emptyObj
  | NetResult.resp status body =>
    if status = 200 then
      match body with
      | Except.ok b => b
      | Except.error _ => emptyObj
    else emptyObj

/-- One decoded page of the JIRA search endpoint: `total` and the batch of
issues (issues are opaque keys here). -/
structure JiraResp where
  total : Nat
  issues : List String
deriving DecidableEq

/-- One page fetch of `fetch_all_issues` (lines 250–252):
`session.post` may raise, `raise_for_status()` raises exactly on the
client/server error statuses `400 ≤ status < 600` (any other status,
including ≥ 600, falls through), and `response.json()` may raise; every
such exception propagates (the `except` clause at lines 271–273
re-raises). -/
def jira_fetch_page (net : NetResult JiraResp) : Except String JiraResp :=
  match net with
  | NetResult.exn => Except.error "RequestException"
  | NetResult.resp status body =>
    if 400 ≤ status ∧ status < 600 then Except.error "HTTPError"
    else
      match body with
      | Except.ok b => Except.ok b
      | Except.error _ => Except.error "JSONDecodeError"

/-! ### Token-based directory paginator (lines 146–156) -/

/-- One decoded page of the directory listing, after `safe_get_json`:
`res.get('users', [])` and `res.get('nextPageToken')` (users are reduced
to their `primaryEmail`). -/
structure DirPage where
  users : List String
  nextPageToken : Option String
deriving DecidableEq

/-- Python truthiness of the continuation token: absent or empty string
means "no further pages" (`if not page_token: break`). -/
def tokenTruthy : Option String → Bool
  | none => false
  | some t => !(t == "")

/-- The `while True` pagination loop of lines 148–156.  `server i` is the
decoded response to the `i`-th page request (requests are issued in order,
each with the token of its predecessor); `i` counts requests already
issued.  Returns the accumulated users and the number of requests. -/
def listUsersLoop (server : Nat → DirPage) : Nat → Nat → List String → Option (List String × Nat)
  | 0, _, _ => none
  | Nat.succ fuel, i, acc =>
    let res := server i
    let acc1 := acc ++ res.users
    if tokenTruthy res.nextPageToken then listUsersLoop server fuel (i + 1) acc1
    else some (acc1, i + 1)

/-- A pagination script of N pages in which every page except the last
carries a (truthy) continuation token and the last carries none. -/
def goodScriptB : List DirPage → Bool
  | [] => false
  | [p] => !(tokenTruthy p.nextPageToken)
  | p :: q :: rest => tokenTruthy p.nextPageToken && goodScriptB (q :: rest)

/-- A concrete two-page directory script: the first page carries a token,
the second does not. -/
def pagesW : List DirPage := [⟨["u1"], some "t"⟩, ⟨["u2"], none⟩]

/-! ### Offset-based JIRA paginator (lines 224–270) -/

/-- The `while True` loop of `fetch_all_issues` (lines 244–263), with the
mutable state `start_at`, `fetched_count`, `total_issues`, the request
counter and the accumulator made explicit.  `server startAt` is the raw
network outcome of the page request at offset `startAt`; a page failure
propagates as `Except.error` (see `jira_fetch_page`). -/
def fetchAllLoop (server : Nat → NetResult JiraResp) (B : Nat) :
    Nat → Nat → Nat → Nat → Nat → List String → Option (Except String (List String × Nat))
  | 0, _, _, _, _, _ => none
  | Nat.succ fuel, startAt, fetched, total, reqs, acc =>
    match jira_fetch_page (server startAt) with
    | Except.error e => some (Except.error e)
    | Except.ok data =>
      let total1 := if startAt = 0 then data.total else total
      let acc1 := acc ++ data.issues
      let fetched1 := fetched + data.issues.length
      if total1 ≤ fetched1 ∨ data.issues.length = 0 then some (Except.ok (acc1, reqs + 1))
      else fetchAllLoop server B fuel (startAt + B) fetched1 total1 (reqs + 1) acc1

/-- `fetch_all_issues` entry: `start_at = 0`, counters zero, empty
accumulator, result also reports how many page requests were issued. -/
def fetch_all_issues (server : Nat → NetResult JiraResp) (B : Nat) (fuel : Nat) :
    Option (Except String (List String × Nat)) :=
  fetchAllLoop server B fuel 0 0 0 0 []

/-- A well-behaved JIRA backend holding the issue list `L`: the request at
offset `startAt` succeeds with status 200 and returns
`L[startAt : startAt+B]` together with the true total. -/
def sliceServer (L : List String) (B : Nat) (startAt : Nat) : NetResult JiraResp :=
  NetResult.resp 200 (Except.ok ⟨L.length, (L.drop startAt).take B⟩)

/-- Number of pages the slice server serves for `L` with batch size `B`
(one final short or empty page; a single empty page when `L` is empty). -/
def numPages (L : List String) (B : Nat) : Nat :=
  if L.isEmpty then 1 else (L.length + B - 1) / B

/-! ### Inactivity enricher (lines 158–206) -/

/-- One login event as returned by the reports API; `time` is the parsed
UTC instant in seconds, `none` when the `id.time` field is missing or
empty (`events[0].get("id", {}).get("time")` falsy). -/
structure LoginEvent where
  time : Option Int

/-- Decoded body of the most-recent-login lookup (`items`, possibly absent
hence `[]` after `safe_get_json`). -/
structure LoginData where
  items : List LoginEvent

/-- One `parameters` entry of a usage report; `intValue` may be absent
(`param.get("intValue", 0)` defaults it to 0). -/
structure UsageParam where
  name : String
  intValue : Option Int

/-- One usage report (`usageReports[i]`). -/
structure UsageReport where
  parameters : List UsageParam

/-- Decoded body of the usage-by-date lookup. -/
structure UsageData where
  usageReports : List UsageReport

/-- The inner `for param in parameters` loop of lines 188–191: the value of
the first parameter named `accounts:used_quota_in_mb`, if any. -/
def findQuota : List UsageParam → Option ℚ
  | [] => none
  | p :: ps =>
    if p.name = "accounts:used_quota_in_mb" then some ((p.intValue.getD 0 : Int) : ℚ)
    else findQuota ps

/-- The quota value a candidate day contributes: `none` when the day's
`usageReports` list is empty or its first report lacks the parameter. -/
def dayQuota (u : UsageData) : Option ℚ :=
  match u.usageReports with
  | [] => none
  | r :: _ => findQuota r.parameters

/-- The `for days_ago in range(4, 30)` scan of lines 180–193, transcribed
step for step: skip days with no reports, overwrite the running value with
the first matching parameter of the first report, and break as soon as the
running value is `> 0`.  `usage d` is the decoded response for the day `d`
days before now. -/
def scanLoop (usage : Nat → UsageData) : List Nat → ℚ → ℚ
  | [], acc => acc
  | d :: ds, acc =>
    match (usage d).usageReports with
    | [] => scanLoop usage ds acc
    | r :: _ =>
      let acc1 := match findQuota r.parameters with
        | some v => v
        | none => acc
      if 0 < acc1 then acc1 else scanLoop usage ds acc1

/-- `total_storage_mb` for one user: the scan over the window of candidate
days 4..29 days ago (most recent first), starting from 0. -/
def total_storage_mb (usage : Nat → UsageData) : ℚ :=
  scanLoop usage (List.range' 4 26) 0

/-- One entry of the `inactive_users` result list (lines 195–200);
`last_login` keeps the parsed instant rather than its string rendering. -/
structure InactiveUser where
  email : String
  last_login : Int
  inactive_days : Int
  storage_gb : ℚ

/-- The most-recent-login instant of a user, if the lookup returned at
least one item and that item carries a (truthy) timestamp — the guard of
lines 165–167. -/
def lastLoginTime (d : LoginData) : Option Int :=
  match d.items with
  | [] => none
  | ev :: _ => ev.time

/-- The per-email enrichment loop of lines 161–202: drop the user when the
login lookup yields no usable timestamp, drop when the inactivity period
is below the caller-supplied minimum, otherwise emit a record with the
scanned storage value.  `now` is `datetime.utcnow()` in seconds;
`login e` and `usage e d` are the decoded responses of the two lookups. -/
def enrichEmails (now minDays : Int) (login : String → LoginData)
    (usage : String → Nat → UsageData) : List String → List InactiveUser
  | [] => []
  | e :: rest =>
    match lastLoginTime (login e) with
    | none => enrichEmails now minDays login usage rest
    | some t =>
      let days := Int.fdiv (now - t) 86400
      if days < minDays then enrichEmails now minDays login usage rest
      else
        { email := e, last_login := t, inactive_days := days,
          storage_gb := round2 (total_storage_mb (usage e) / 1024) }
          :: enrichEmails now minDays login usage rest

/-- The keep-condition of the enrichment loop, for stating the drop rule:
a usable timestamp exists and the elapsed days meet the minimum. -/
def keptB (now minDays : Int) (login : String → LoginData) (e : String) : Bool :=
  match lastLoginTime (login e) with
  | none => false
  | some t => !(Int.fdiv (now - t) 86400 < minDays)

/-- Modelled from the claim's words (for comparison with
`total_storage_mb`): the value of the first candidate day in the window
whose response contains the named parameter with a non-zero value, and 0
when the window is exhausted without one. -/
def specStorageFirstNonzero (usage : Nat → UsageData) : ℚ :=
  match ((List.range' 4 26).filterMap (fun d => dayQuota (usage d))).find?
      (fun v => !(v == 0)) with
  | some v => v
  | none => 0

/-- Amended description of the scan: the first strictly positive value in
the window wins; otherwise the field ends at the value contributed by the
last candidate day that carried the parameter (0 when none did). -/
def amendedStorage (usage : Nat → UsageData) : ℚ :=
  let vals := (List.range' 4 26).filterMap (fun d => dayQuota (usage d))
  match vals.dropWhile (fun v => decide (v ≤ 0)) with
  | v :: _ => v
  | [] => vals.getLast?.getD 0

/-- A concrete usage backend for the storage scan: the day 4 days ago
carries the named parameter with value −1, the day 5 days ago carries it
with value 5, and no other day has reports. -/
def usageCE (d : Nat) : UsageData :=
  if d = 4 then ⟨[⟨[⟨"accounts:used_quota_in_mb", some (-1)⟩]⟩]⟩
  else if d = 5 then ⟨[⟨[⟨"accounts:used_quota_in_mb", some 5⟩]⟩]⟩
  else ⟨[]⟩

/-- Descending comparison on `storage_gb`, the key of
`inactive_users.sort(key=..., reverse=True)` (line 204). -/
def userGt (a b : InactiveUser) : Bool :=
  decide (b.storage_gb < a.storage_gb)

/-- The final ranking of the inactivity report (line 204): Python
`list.sort` is stable, embedded by the stable descending insertion sort. -/
def sort_inactive (users : List InactiveUser) : List InactiveUser :=
  stableSortDesc userGt users

/-! ### JIRA aggregators (lines 308–353) -/

/-- A calendar date, ordered lexicographically (Python `date`). -/
structure SimpleDate where
  year : Nat
  month : Nat
  day : Nat
deriving DecidableEq

/-- `a < b` on dates. -/
def dateLtB (a b : SimpleDate) : Bool :=
  a.year < b.year ||
    (a.year == b.year &&
      (a.month < b.month || (a.month == b.month && a.day < b.day)))

/-- One issue record as built by `analyze_productivity` (lines 282–296),
restricted to the fields the aggregators read. -/
structure Issue where
  assignee : String
  status_category : String
  due_date : Option SimpleDate
  resolution_date : Option SimpleDate
  time_spent : Int
deriving DecidableEq

/-- Per-assignee accumulator of `calculate_user_stats` (lines 309–313). -/
structure UserStat where
  assignee : String
  total : Nat
  completed : Nat
  in_progress : Nat
  todo : Nat
  completion_rate : ℚ
  total_time_spent : Int
  avg_time_per_task : Int
  completed_this_month : Nat
  overdue_tasks : Nat
deriving DecidableEq

/-- The defaultdict initial value (line 309–313). -/
def initStat : UserStat :=
  { assignee := "", total := 0, completed := 0, in_progress := 0, todo := 0,
    completion_rate := 0, total_time_spent := 0, avg_time_per_task := 0,
    completed_this_month := 0, overdue_tasks := 0 }

/-- `status_category == 'done'` after lower-casing (line 325). -/
def isDoneB (i : Issue) : Bool :=
  lowerStr i.status_category == "done".data

/-- `'progress' in status_category` after lower-casing (line 329). -/
def hasProgressB (i : Issue) : Bool :=
  containsSeq "progress".data (lowerStr i.status_category)

/-- The in-progress bucket: the `elif` branch of line 329 (not done, and
the lowered status category contains `progress`). -/
def inProgressBucketB (i : Issue) : Bool :=
  !(isDoneB i) && hasProgressB i

/-- The todo bucket: the `else` branch of line 331. -/
def todoBucketB (i : Issue) : Bool :=
  !(isDoneB i) && !(hasProgressB i)

/-- The overdue test of lines 333–334 and 348: a due date exists, it is
strictly before today, and the record is not in the completed bucket. -/
def overdueB (today : SimpleDate) (i : Issue) : Bool :=
  (match i.due_date with
   | some d => dateLtB d today
   | none => false) && !(isDoneB i)

/-- `resolution_date` falls in the current month/year (line 327). -/
def resolvedThisMonthB (cm cy : Nat) (i : Issue) : Bool :=
  match i.resolution_date with
  | some d => d.month == cm && d.year == cy
  | none => false

/-- One iteration of the accumulation loop of lines 317–334 on the stats
entry of `issue['assignee']`: increment the total and the time sum, put
the record in exactly one of the three buckets (the `if`/`elif`/`else` of
lines 325–332, with the `elif`/`else` guards spelled out), track
completed-this-month, and apply the overdue test. -/
def bucketStep (today : SimpleDate) (cm cy : Nat) (s : UserStat) (i : Issue) : UserStat :=
  { s with
    assignee := i.assignee
    total := s.total + 1
    total_time_spent := s.total_time_spent + i.time_spent
    completed := s.completed + (if isDoneB i then 1 else 0)
    completed_this_month :=
      s.completed_this_month + (if isDoneB i && resolvedThisMonthB cm cy i then 1 else 0)
    in_progress := s.in_progress + (if inProgressBucketB i then 1 else 0)
    todo := s.todo + (if todoBucketB i then 1 else 0)
    overdue_tasks := s.overdue_tasks + (if overdueB today i then 1 else 0) }

/-- `stats[assignee]` access with defaultdict semantics: update in place
when the key exists, append a freshly initialised entry otherwise
(Python dicts preserve insertion order). -/
def updStats (k : String) (f : UserStat → UserStat) : List (String × UserStat) → List (String × UserStat)
  | [] => [(k, f initStat)]
  | (k1, s) :: rest =>
    if k1 = k then (k1, f s) :: rest else (k1, s) :: updStats k f rest

/-- The finalisation pass of lines 335–339: completion rate when the total
is positive, average time per completed task when any task completed. -/
def finalizeStat (s : UserStat) : UserStat :=
  let s1 :=
    if 0 < s.total then
      { s with completion_rate := round1 ((s.completed : ℚ) / (s.total : ℚ) * 100) }
    else s
  if 0 < s1.completed then
    { s1 with avg_time_per_task := roundHalfEven ((s1.total_time_spent : ℚ) / (s1.completed : ℚ)) }
  else s1

/-- One iteration of the outer loop of lines 317–334: skip issues whose
assignee is `Unassigned` (line 319), otherwise fold the issue into its
assignee's entry. -/
def statsStep (today : SimpleDate) (cm cy : Nat) (m : List (String × UserStat)) (i : Issue) :
    List (String × UserStat) :=
  if i.assignee = "Unassigned" then m
  else updStats i.assignee (fun s => bucketStep today cm cy s i) m

/-- `calculate_user_stats` (lines 308–340): fold every issue with a named
assignee into its entry, then finalise every entry. -/
def calculate_user_stats (today : SimpleDate) (cm cy : Nat) (issues : List Issue) :
    List (String × UserStat) :=
  (issues.foldl (statsStep today cm cy) []).map (fun e => (e.1, finalizeStat e.2))

/-- The aggregation example of the spec: four issues for assignee `A`,
three in status-category `Done` and one in `To Do`. -/
def exampleIssues : List Issue :=
  [⟨"A", "Done", none, none, 0⟩, ⟨"A", "Done", none, none, 0⟩,
   ⟨"A", "Done", none, none, 0⟩, ⟨"A", "To Do", none, none, 0⟩]

/-- The stats entry the example produces for `A`. -/
def exSt : UserStat :=
  { assignee := "A", total := 4, completed := 3, in_progress := 0, todo := 1,
    completion_rate := 75, total_time_spent := 0, avg_time_per_task := 0,
    completed_this_month := 0, overdue_tasks := 0 }

/-- The same entry before finalisation (completion rate still 0). -/
def exSt0 : UserStat :=
  { assignee := "A", total := 4, completed := 3, in_progress := 0, todo := 1,
    completion_rate := 0, total_time_spent := 0, avg_time_per_task := 0,
    completed_this_month := 0, overdue_tasks := 0 }

/-- The issues that contribute to the stats entry of key `k`. -/
def relevantIssues (k : String) (issues : List Issue) : List Issue :=
  issues.filter (fun i => i.assignee == k && !(i.assignee == "Unassigned"))

/-- Result record of `calculate_overall_stats` (lines 349–353);
`todo` is computed by subtraction in the source, hence an `Int`. -/
structure OverallStats where
  total : Nat
  completed : Nat
  in_progress : Nat
  todo : Int
  overdue : Nat
  completion_rate : ℚ

/-- `calculate_overall_stats` (lines 342–353): corpus-wide counts by the
same category tests, `todo` by subtraction, the overdue count, and the
overall completion rate. -/
def calculate_overall_stats (today : SimpleDate) (issues : List Issue) : OverallStats :=
  let total := issues.length
  let completed := issues.countP (fun i => isDoneB i)
  let in_progress := issues.countP (fun i => hasProgressB i)
  let overdue := issues.countP (fun i => overdueB today i)
  { total := total
    completed := completed
    in_progress := in_progress
    todo := (total : Int) - (completed : Int) - (in_progress : Int)
    overdue := overdue
    completion_rate := if 0 < total then round1 ((completed : ℚ) / (total : ℚ) * 100) else 0 }

/-! ### Spreadsheet threshold selection and ranking (lines 74–90) -/

/-- One spreadsheet row after the derivation steps of lines 52–62,
restricted to the fields the selector and ranker read: `Total Hours` and
`Total Missed or Voicemails`. -/
structure CallRow where
  name : String
  totalHours : ℚ
  missedVm : ℚ
deriving DecidableEq

/-- `Series.quantile(0.75)` with pandas' default linear interpolation:
sort ascending, take position `0.75 * (n - 1)` and interpolate between its
neighbours.  (pandas yields NaN on an empty series; the 0 default of this
embedding is never reached on a non-empty row set.) -/
def quantile75 (l : List ℚ) : ℚ :=
  match sortAsc l with
  | [] => 0
  | x :: xs =>
    let n := (x :: xs).length
    let i := 3 * (n - 1) / 4
    let frac : ℚ := (3 * (n - 1) : ℚ) / 4 - (i : ℚ)
    let a := (x :: xs).getD i 0
    let b := (x :: xs).getD (i + 1) a
    a + frac * (b - a)

/-- The selection of lines 74–80: keep a row iff it meets or exceeds the
75th-percentile threshold on either axis (logical OR). -/
def top_users (rows : List CallRow) : List CallRow :=
  let t1 := quantile75 (rows.map CallRow.totalHours)
  let t2 := quantile75 (rows.map CallRow.missedVm)
  rows.filter (fun r => decide (t1 ≤ r.totalHours) || decide (t2 ≤ r.missedVm))

/-- The two-key descending comparison of `sort_values(by=["Total Hours",
"Total Missed or Voicemails"], ascending=[False, False])` (lines 82–85). -/
def rowGt (a b : CallRow) : Bool :=
  decide (b.totalHours < a.totalHours) ||
    (a.totalHours == b.totalHours && decide (b.missedVm < a.missedVm))

/-- The ranking of the spreadsheet report: survivors sorted by the stable
two-key descending order (pandas' multi-column sort is stable). -/
def top_users_sorted (rows : List CallRow) : List CallRow :=
  stableSortDesc rowGt (top_users rows)

/-- The row set of the spec's threshold-selection example: duration values
`[10,10,10,1]` and missed values `[0,0,0,100]`. -/
def exampleRows : List CallRow :=
  [⟨"a", 10, 0⟩, ⟨"b", 10, 0⟩, ⟨"c", 10, 0⟩, ⟨"d", 1, 100⟩]

/-! ### Endpoint request validation (lines 29–50, 99–110, 357–367) -/

/-- A client-facing outcome of the validation prologue of an endpoint:
an immediate JSON error reply with a status code, or `proceed` when the
request passes validation and the pipeline runs. -/
inductive Response where
  | reply (status : Nat) (error : String) : Response
  | proceed : Response
deriving DecidableEq

/-- The column rename map of lines 38–42. -/
def renameCol (c : String) : String :=
  if c = "Inbound total no.of Calls" then "Inbound Calls"
  else if c = "Outbound total no.of Calls" then "Outbound Calls"
  else c

/-- The required columns of lines 44–47. -/
def requiredCols : List String :=
  ["Name", "Total Duration", "Missed Calls", "Voicemails",
   "Inbound Calls", "Outbound Calls", "Inbound Duration", "Outbound Duration"]

/-- The first required column absent from the (renamed) table, following
the loop order of lines 48–50. -/
def firstMissing (cols : List String) : Option String :=
  requiredCols.find? (fun c => !(cols.contains c))

/-- The validation-relevant shape of a request to `/analyze-xlsx`:
whether the multipart field `file` is present, the uploaded file's name
(Werkzeug `FileStorage` is falsy iff its filename is empty), and the
columns of the parsed table. -/
structure XlsxRequest where
  hasFilePart : Bool
  filename : String
  columns : List String

/-- The validation prologue of `analyze_xlsx` (lines 29–50):
`request.files['file']` raises `BadRequestKeyError` when the field is
absent, which the blanket `except` of lines 94–95 turns into a 500 reply;
a falsy file gives a 400; the first missing required column gives a 400
naming the column.  (The table is taken as already parsed; a file
`pd.read_excel` cannot read also ends in the blanket 500.) -/
def analyze_xlsx_validate (r : XlsxRequest) : Response :=
  if !r.hasFilePart then Response.reply 500 "Internal Server Error"
  else if r.filename = "" then Response.reply 400 "No file uploaded"
  else
    match firstMissing (r.columns.map renameCol) with
    | some c => Response.reply 400 ("Missing column: " ++ c)
    | none => Response.proceed

/-- The validation-relevant shape of a request to `/upload`: presence of
the file part and the raw string form values (absent = `none`). -/
structure UploadRequest where
  hasFilePart : Bool
  inactivity_days : Option String
  admin_email : Option String

/-- Python truthiness of an optional string (`if not admin_email`). -/
def truthyStr : Option String → Bool
  | none => false
  | some s => !(s == "")

/-- The validation prologue of `upload_service_account` (lines 99–110):
a missing file part gives a 400; `int(request.form.get('inactivity_days'))`
raises `TypeError` on an absent field and `ValueError` on a non-integer
one, both of which the blanket `except` of lines 208–209 turns into 500
replies; a falsy admin email gives a 400. -/
def upload_validate (r : UploadRequest) : Response :=
  if !r.hasFilePart then Response.reply 400 "No file uploaded"
  else
    match r.inactivity_days with
    | none => Response.reply 500 "int() argument must not be None"
    | some s =>
      match parseIntChars s.data with
      | none => Response.reply 500 "invalid literal for int()"
      | some _ =>
        if truthyStr r.admin_email then Response.proceed
        else Response.reply 400 "Admin email is required"

/-- The validation-relevant shape of a request to `/analyze-jira`. -/
structure JiraRequest where
  base_url : Option String
  username : Option String
  api_token : Option String

/-- The validation prologue of `analyze_jira` (lines 357–367):
`if not all([base_url, username, api_token])` yields a single generic 400
message that does not name the missing field. -/
def analyze_jira_validate (r : JiraRequest) : Response :=
  if truthyStr r.base_url && truthyStr r.username && truthyStr r.api_token then
    Response.proceed
  else Response.reply 400 "Missing required parameters."

/-! ## Claim theorems -/

/-- C10: `parse_duration` is total: whenever the string form of the value
splits on `":"` into exactly three integer parts, the result is
`h * 3600 + m * 60 + s`, and on every other input (empty, malformed, the
wrong number of parts, or a non-integer part) the result is `0`; a
malformed duration cell contributes zero seconds rather than an error. -/
theorem c10_parse_duration_total :
    (∀ (s : String) (a b c : List Char) (x y z : Int),
        splitOnChar ':' s.data = [a, b, c] →
        parseIntChars a = some x → parseIntChars b = some y → parseIntChars c = some z →
        parse_duration s = x * 3600 + y * 60 + z) ∧
    (∀ s : String, (splitOnChar ':' s.data).length ≠ 3 → parse_duration s = 0) ∧
    (∀ (s : String) (a b c : List Char),
        splitOnChar ':' s.data = [a, b, c] →
        (parseIntChars a = none ∨ parseIntChars b = none ∨ parseIntChars c = none) →
        parse_duration s = 0) ∧
    parse_duration "1:02:03" = 3723 ∧
    parse_duration " 1:2:3" = 3723 ∧
    parse_duration "1:+2:3_0" = 3750 ∧
    parse_duration "" = 0 ∧
    parse_duration "7:00" = 0 ∧
    parse_duration "nan" = 0 ∧
    parse_duration "1:2:" = 0 ∧
    parse_duration "1:2:3:4" = 0 := by
  refine ⟨?_, ?_, ?_, by decide, by decide, by decide, by decide, by decide, by decide,
    by decide, by decide⟩
  · intro s a b c x y z hsplit ha hb hc
    simp [parse_duration, parse_duration_body, hsplit, ha, hb, hc]
  · intro s hlen
    unfold parse_duration parse_duration_body
    cases h : splitOnChar ':' s.data with
    | nil => rfl
    | cons a t =>
      cases t with
      | nil => rfl
      | cons b t2 =>
        cases t2 with
        | nil => rfl
        | cons c t3 =>
          cases t3 with
          | nil => exact absurd (by rw [h]; rfl) hlen
          | cons d t4 => rfl
  · intro s a b c hsplit hbad
    unfold parse_duration parse_duration_body
    rw [hsplit]
    rcases hbad with ha | hb | hc
    · cases hB : parseIntChars b <;> cases hC : parseIntChars c <;> simp [ha, hB, hC]
    · cases hA : parseIntChars a <;> cases hC : parseIntChars c <;> simp [hA, hb, hC]
    · cases hA : parseIntChars a <;> cases hB : parseIntChars b <;> simp [hA, hB, hc]

/-- C10 witness: the three hypothesis-bearing parts of
`c10_parse_duration_total` applied at concrete inputs. -/
theorem c10_parse_duration_witness :
    parse_duration "1:2:3" = 1 * 3600 + 2 * 60 + 3 ∧
    parse_duration "7:00" = 0 ∧
    parse_duration "1:2:x" = 0 := by
  refine ⟨?_, ?_, ?_⟩
  · exact c10_parse_duration_total.1 "1:2:3" "1".data "2".data "3".data 1 2 3
      (by decide) (by decide) (by decide) (by decide)
  · exact c10_parse_duration_total.2.1 "7:00" (by decide)
  · exact c10_parse_duration_total.2.2.1 "1:2:x" "1".data "2".data "x".data
      (by decide) (Or.inr (Or.inr (by decide)))

/-- C1 counterexample: the claim extends the empty-object-on-failure
contract to "every fetch the pipeline issues, including the page fetches
of the issue-tracker pagination loop", but a JIRA page fetch with HTTP
status 404 raises (`raise_for_status` / the re-raising `except` clause of
lines 271–273) instead of returning an empty object. -/
theorem c1_counterexample :
    jira_fetch_page (NetResult.resp 404 (Except.ok ⟨0, []⟩)) = Except.error "HTTPError" := rfl

/-- C1 (amended): `safe_get_json` — the fetch used for the directory
listing, the login lookups and the usage lookups — returns the decoded
body on status 200 and the empty object on any non-200 status, transport
failure or decode failure, never raising (its Lean type is total); the
issue-tracker pagination loop does NOT use it: its page fetches raise
exactly on the statuses 400–599 (`raise_for_status`), on transport
failure, and on decode failure, and on any other status they decode and
return the body. -/
theorem c1_fetcher_amended :
    (∀ (α : Type) (emptyObj b : α),
        safe_get_json emptyObj (NetResult.resp 200 (Except.ok b)) = b) ∧
    (∀ (α : Type) (emptyObj : α) (status : Nat) (body : Except Unit α),
        status ≠ 200 → safe_get_json emptyObj (NetResult.resp status body) = emptyObj) ∧
    (∀ (α : Type) (emptyObj : α) (status : Nat),
        safe_get_json emptyObj (NetResult.resp status (Except.error ())) = emptyObj) ∧
    (∀ (α : Type) (emptyObj : α),
        safe_get_json emptyObj (NetResult.exn : NetResult α) = emptyObj) ∧
    (∀ (status : Nat) (body : Except Unit JiraResp),
        400 ≤ status → status < 600 →
        jira_fetch_page (NetResult.resp status body) = Except.error "HTTPError") ∧
    (∀ status : Nat, ¬ (400 ≤ status ∧ status < 600) →
        jira_fetch_page (NetResult.resp status (Except.error ())) =
          Except.error "JSONDecodeError") ∧
    (∀ (status : Nat) (b : JiraResp), ¬ (400 ≤ status ∧ status < 600) →
        jira_fetch_page (NetResult.resp status (Except.ok b)) = Except.ok b) ∧
    jira_fetch_page NetResult.exn = Except.error "RequestException" := by
  refine ⟨fun α e b => rfl, ?_, ?_, fun α e => rfl, ?_, ?_, ?_, rfl⟩
  · intro α e status body hs
    simp [safe_get_json, hs]
  · intro α e status
    by_cases h : status = 200 <;> simp [safe_get_json, h]
  · intro status body hs1 hs2
    simp only [jira_fetch_page, if_pos (And.intro hs1 hs2)]
  · intro status hs
    simp only [jira_fetch_page, if_neg hs]
  · intro status b hs
    simp only [jira_fetch_page, if_neg hs]

/-- C1 witness: the hypothesis-bearing parts of `c1_fetcher_amended`
applied at concrete inputs (a 500 page fetch raises, a 604 one does
not). -/
theorem c1_fetcher_witness :
    safe_get_json (⟨[], none⟩ : DirPage) (NetResult.resp 404 (Except.ok ⟨["u"], none⟩)) =
      (⟨[], none⟩ : DirPage) ∧
    jira_fetch_page (NetResult.resp 500 (Except.ok ⟨3, ["k"]⟩)) = Except.error "HTTPError" ∧
    jira_fetch_page (NetResult.resp 604 (Except.ok ⟨3, ["k"]⟩)) = Except.ok ⟨3, ["k"]⟩ := by
  refine ⟨?_, ?_, ?_⟩
  · exact c1_fetcher_amended.2.1 DirPage ⟨[], none⟩ 404 (Except.ok ⟨["u"], none⟩) (by decide)
  · exact c1_fetcher_amended.2.2.2.2.1 500 (Except.ok ⟨3, ["k"]⟩) (by decide) (by decide)
  · exact c1_fetcher_amended.2.2.2.2.2.2.1 604 ⟨3, ["k"]⟩ (by decide)

/-- C9 counterexample: a request to `/upload` with a file part and an
admin email but no `inactivity_days` form field hits
`int(request.form.get('inactivity_days'))`, whose `TypeError` the blanket
handler of lines 208–209 reports as a 500, not the claimed 400-class
status. -/
theorem c9_counterexample :
    upload_validate ⟨true, none, some "admin@example.com"⟩ =
      Response.reply 500 "int() argument must not be None" := rfl

/-- C9 (amended): a missing required column of the spreadsheet report and
a missing admin email of the inactivity report are answered with a 400
status and a message naming the field, and missing issue-tracker
credentials are answered with a 400 status but only with the generic
message `Missing required parameters.`; however a `/upload` request whose
`inactivity_days` field is absent or not an integer, and a
`/analyze-xlsx` request with no `file` part at all, are answered with a
500-class status. -/
theorem c9_validation_amended :
    (∀ (r : XlsxRequest) (c : String),
        r.hasFilePart = true → r.filename ≠ "" →
        firstMissing (r.columns.map renameCol) = some c →
        analyze_xlsx_validate r = Response.reply 400 ("Missing column: " ++ c)) ∧
    (∀ r : XlsxRequest, r.hasFilePart = false →
        analyze_xlsx_validate r = Response.reply 500 "Internal Server Error") ∧
    (∀ r : UploadRequest, r.hasFilePart = true → r.inactivity_days = none →
        upload_validate r = Response.reply 500 "int() argument must not be None") ∧
    (∀ (r : UploadRequest) (s : String), r.hasFilePart = true →
        r.inactivity_days = some s → parseIntChars s.data = none →
        upload_validate r = Response.reply 500 "invalid literal for int()") ∧
    (∀ (r : UploadRequest) (s : String) (n : Int), r.hasFilePart = true →
        r.inactivity_days = some s → parseIntChars s.data = some n →
        truthyStr r.admin_email = false →
        upload_validate r = Response.reply 400 "Admin email is required") ∧
    (∀ r : UploadRequest, r.hasFilePart = false →
        upload_validate r = Response.reply 400 "No file uploaded") ∧
    (∀ r : JiraRequest,
        (truthyStr r.base_url && truthyStr r.username && truthyStr r.api_token) = false →
        analyze_jira_validate r = Response.reply 400 "Missing required parameters.") := by
  refine ⟨?_, ?_, ?_, ?_, ?_, ?_, ?_⟩
  · intro r c hf hname hmiss
    simp [analyze_xlsx_validate, hf, hname, hmiss]
  · intro r hf
    simp [analyze_xlsx_validate, hf]
  · intro r hf hd
    simp [upload_validate, hf, hd]
  · intro r s hf hd hp
    simp [upload_validate, hf, hd, hp]
  · intro r s n hf hd hp ha
    simp [upload_validate, hf, hd, hp, ha]
  · intro r hf
    simp [upload_validate, hf]
  · intro r h
    simp [analyze_jira_validate, h]

/-- C9 witness: the parts of `c9_validation_amended` applied at concrete
requests. -/
theorem c9_validation_witness :
    analyze_xlsx_validate ⟨true, "report.xlsx", ["Name"]⟩ =
      Response.reply 400 ("Missing column: " ++ "Total Duration") ∧
    upload_validate ⟨true, some "30", none⟩ = Response.reply 400 "Admin email is required" ∧
    upload_validate ⟨true, some "thirty", some "a@b.c"⟩ =
      Response.reply 500 "invalid literal for int()" ∧
    analyze_jira_validate ⟨some "https://x", none, some "tok"⟩ =
      Response.reply 400 "Missing required parameters." := by
  refine ⟨?_, ?_, ?_, ?_⟩
  · exact c9_validation_amended.1 ⟨true, "report.xlsx", ["Name"]⟩ "Total Duration"
      rfl (by decide) (by decide)
  · exact c9_validation_amended.2.2.2.2.1 ⟨true, some "30", none⟩ "30" 30
      rfl rfl (by decide) rfl
  · exact c9_validation_amended.2.2.2.1 ⟨true, some "thirty", some "a@b.c"⟩ "thirty"
      rfl rfl (by decide)
  · exact c9_validation_amended.2.2.2.2.2.2 ⟨some "https://x", none, some "tok"⟩ (by decide)


/-- `getLast?.getD` on a non-empty list ignores the default. -/
theorem getLastD_cons_eq {α : Type} (w : α) (ws : List α) (a b : α) :
    (w :: ws).getLast?.getD a = (w :: ws).getLast?.getD b := by
  cases h : (w :: ws).getLast? with
  | none => exact absurd (List.getLast?_eq_none_iff.mp h) (List.cons_ne_nil w ws)
  | some x => rfl

/-- The quota scan, related to its window's contributed values: starting
from a non-positive accumulator, the scan returns the first strictly
positive contributed value, and otherwise the last contributed value
(falling back to the accumulator when no day contributes). -/
theorem scanLoop_eq (usage : Nat → UsageData) :
    ∀ (ds : List Nat) (acc : ℚ), acc ≤ 0 →
      scanLoop usage ds acc =
        match (ds.filterMap (fun d => dayQuota (usage d))).dropWhile
            (fun v => decide (v ≤ 0)) with
        | v :: _ => v
        | [] => (ds.filterMap (fun d => dayQuota (usage d))).getLast?.getD acc := by
  intro ds
  induction ds with
  | nil => intro acc hacc; simp [scanLoop]
  | cons d rest ih =>
    intro acc hacc
    cases hu : (usage d).usageReports with
    | nil =>
      have hq : dayQuota (usage d) = none := by simp [dayQuota, hu]
      simp only [scanLoop, hu, List.filterMap_cons, hq]
      exact ih acc hacc
    | cons r rs =>
      have hq : dayQuota (usage d) = findQuota r.parameters := by simp [dayQuota, hu]
      cases hf : findQuota r.parameters with
      | none =>
        have hnot : ¬ (0 : ℚ) < acc := not_lt.mpr hacc
        simp only [scanLoop, hu, hf, List.filterMap_cons, hq, if_neg hnot]
        exact ih acc hacc
      | some v =>
        by_cases hv : 0 < v
        · have : ¬ v ≤ 0 := not_le.mpr hv
          simp only [scanLoop, hu, hf, List.filterMap_cons, hq, if_pos hv]
          simp [List.dropWhile_cons, this]
        · have hvle : v ≤ 0 := not_lt.mp hv
          simp only [scanLoop, hu, hf, List.filterMap_cons, hq, if_neg hv]
          rw [ih v hvle]
          simp only [List.dropWhile_cons, decide_eq_true_eq, if_pos hvle]
          cases hrec : (rest.filterMap (fun d => dayQuota (usage d))).dropWhile
              (fun v => decide (v ≤ 0)) with
          | cons w ws => rfl
          | nil =>
            cases hvals : rest.filterMap (fun d => dayQuota (usage d)) with
            | nil => simp
            | cons w ws => exact getLastD_cons_eq w ws v acc

/-- C4 counterexample: with the most recent candidate day carrying the
parameter with value −1 (non-zero) and the next day carrying 5, the scan
does not stop at the first non-zero value as the claim states (which
would give −1): the `> 0` test makes it continue and return 5. -/
theorem c4_scan_counterexample :
    total_storage_mb usageCE = 5 ∧ specStorageFirstNonzero usageCE = -1 := by
  constructor
  · 
    show scanLoop usageCE (List.range' 4 26) 0 = 5
    norm_num [List.range', scanLoop, usageCE, findQuota]
  · norm_num [specStorageFirstNonzero, List.range', usageCE, dayQuota, findQuota]

/-- C4 (amended): the scan assigns the derived storage field from the
first candidate day whose response carries the named parameter with a
strictly positive value and stops there; a day whose carried value is
zero or negative overwrites the running field and scanning continues, so
when the window is exhausted without a positive value the field holds the
value contributed by the last candidate day that carried the parameter
(exactly zero when no day carried it, and in particular whenever every
carried value is zero). -/
theorem c4_scan_amended :
    ∀ usage : Nat → UsageData, total_storage_mb usage = amendedStorage usage := by
  intro usage
  unfold total_storage_mb amendedStorage
  rw [scanLoop_eq usage (List.range' 4 26) 0 le_rfl]

/-- C3: an entity appears in the inactivity enricher's output iff its
most-recent-event lookup returned at least one item, that item carries a
timestamp, and the elapsed days computed from it reach the caller-supplied
minimum; entities failing any condition are silently absent (the enricher
is a total function into a plain list, so no error is reported). -/
theorem c3_enrichment_drop_rule :
    ∀ (now minDays : Int) (login : String → LoginData)
      (usage : String → Nat → UsageData) (emails : List String) (e : String),
      (∃ u, u ∈ enrichEmails now minDays login usage emails ∧ u.email = e) ↔
        (e ∈ emails ∧ keptB now minDays login e = true) := by
  intro now minDays login usage emails e
  induction emails with
  | nil => simp [enrichEmails]
  | cons e1 rest ih =>
    cases h : lastLoginTime (login e1) with
    | none =>
      have hk : keptB now minDays login e1 = false := by simp [keptB, h]
      simp only [enrichEmails, h]
      rw [List.mem_cons]
      constructor
      · intro hex
        obtain ⟨hmem, hkept⟩ := ih.mp hex
        exact ⟨Or.inr hmem, hkept⟩
      · rintro ⟨he1 | hmem, hkept⟩
        · rw [he1] at hkept; rw [hk] at hkept; cases hkept
        · exact ih.mpr ⟨hmem, hkept⟩
    | some t =>
      by_cases hd : Int.fdiv (now - t) 86400 < minDays
      · have hk : keptB now minDays login e1 = false := by
          simp [keptB, h, hd]
        simp only [enrichEmails, h, if_pos hd]
        rw [List.mem_cons]
        constructor
        · intro hex
          obtain ⟨hmem, hkept⟩ := ih.mp hex
          exact ⟨Or.inr hmem, hkept⟩
        · rintro ⟨he1 | hmem, hkept⟩
          · rw [he1] at hkept; rw [hk] at hkept; cases hkept
          · exact ih.mpr ⟨hmem, hkept⟩
      · have hk : keptB now minDays login e1 = true := by
          simp [keptB, h, hd]
        simp only [enrichEmails, h, if_neg hd]
        constructor
        · rintro ⟨u, hu, hue⟩
          rw [List.mem_cons] at hu
          rcases hu with hu | hu
          · subst hu
            simp only [] at hue
            subst hue
            exact ⟨List.mem_cons_self _ _, hk⟩
          · have := ih.mp ⟨u, hu, hue⟩
            exact ⟨List.mem_cons_of_mem e1 this.1, this.2⟩
        · rintro ⟨hmem, hkept⟩
          rw [List.mem_cons] at hmem
          rcases hmem with he1 | hmem
          · refine ⟨_, List.mem_cons_self _ _, ?_⟩
            simp [he1]
          · obtain ⟨u, hu, hue⟩ := ih.mpr ⟨hmem, hkept⟩
            exact ⟨u, List.mem_cons_of_mem _ hu, hue⟩

/-- Filtering by a predicate on which the comparison never strictly
orders two matching elements commutes with the stable insertion. -/
theorem filter_insertIfGt {α : Type} (gt : α → α → Bool) (p : α → Bool)
    (hgt : ∀ a b, p a = true → p b = true → gt a b = false) (x : α) :
    ∀ l : List α, (insertIfGt gt x l).filter p = (x :: l).filter p := by
  intro l
  induction l with
  | nil => rfl
  | cons y ys ih =>
    by_cases hgy : gt y x = true
    · by_cases hpx : p x = true
      · by_cases hpy : p y = true
        · rw [hgt y x hpy hpx] at hgy; cases hgy
        · simp [insertIfGt, hgy, List.filter_cons, hpx, hpy, ih]
      · by_cases hpy : p y = true
        · simp [insertIfGt, hgy, List.filter_cons, hpx, hpy, ih]
        · simp [insertIfGt, hgy, List.filter_cons, hpx, hpy, ih]
    · simp only [insertIfGt, if_neg hgy]

/-- The stable descending insertion sort permutes only across non-matching
elements: the subsequence matching `p` is unchanged. -/
theorem filter_stableSortDesc {α : Type} (gt : α → α → Bool) (p : α → Bool)
    (hgt : ∀ a b, p a = true → p b = true → gt a b = false) :
    ∀ l : List α, (stableSortDesc gt l).filter p = l.filter p := by
  intro l
  induction l with
  | nil => rfl
  | cons x xs ih =>
    show (insertIfGt gt x (stableSortDesc gt xs)).filter p = _
    rw [filter_insertIfGt gt p hgt x (stableSortDesc gt xs),
      List.filter_cons, List.filter_cons, ih]

/-- C8: both ranking sorts are stable.  In the spreadsheet report, the
rows of the output whose primary and secondary sort keys equal any fixed
pair appear in exactly the order they had among the survivors, and in the
inactivity report the records with any fixed storage value appear in
exactly their input order. -/
theorem c8_stable_ranking :
    (∀ (rows : List CallRow) (h m : ℚ),
        (top_users_sorted rows).filter
            (fun r => r.totalHours == h && r.missedVm == m) =
          (top_users rows).filter
            (fun r => r.totalHours == h && r.missedVm == m)) ∧
    (∀ (users : List InactiveUser) (g : ℚ),
        (sort_inactive users).filter (fun u => u.storage_gb == g) =
          users.filter (fun u => u.storage_gb == g)) := by
  constructor
  · intro rows h m
    apply filter_stableSortDesc
    intro a b hpa hpb
    simp only [Bool.and_eq_true, beq_iff_eq] at hpa hpb
    obtain ⟨ha1, ha2⟩ := hpa
    obtain ⟨hb1, hb2⟩ := hpb
    simp [rowGt, ha1, ha2, hb1, hb2]
  · intro users g
    apply filter_stableSortDesc
    intro a b hpa hpb
    simp only [beq_iff_eq] at hpa hpb
    simp [userGt, hpa, hpb]

/-- C7: a spreadsheet row survives threshold selection iff it is in the
row set and meets or exceeds the 75th percentile of the duration field or
of the missed-interactions field (logical OR); in the example row set with
durations `[10,10,10,1]` and missed values `[0,0,0,100]`, the `1/100` row
is selected through the missed axis even though it fails the duration
axis. -/
theorem c7_threshold_or_selection :
    (∀ (rows : List CallRow) (r : CallRow),
        r ∈ top_users rows ↔
          r ∈ rows ∧
            (quantile75 (rows.map CallRow.totalHours) ≤ r.totalHours ∨
             quantile75 (rows.map CallRow.missedVm) ≤ r.missedVm)) ∧
    ((⟨"d", 1, 100⟩ : CallRow) ∈ top_users exampleRows ∧
      (1 : ℚ) < quantile75 (exampleRows.map CallRow.totalHours)) := by
  have hgen : ∀ (rows : List CallRow) (r : CallRow),
      r ∈ top_users rows ↔
        r ∈ rows ∧
          (quantile75 (rows.map CallRow.totalHours) ≤ r.totalHours ∨
           quantile75 (rows.map CallRow.missedVm) ≤ r.missedVm) := by
    intro rows r
    simp [top_users, List.mem_filter]
  have hq1 : quantile75 (exampleRows.map CallRow.totalHours) = 10 := by
    norm_num [exampleRows, quantile75, sortAsc, insertAsc]
  have hq2 : quantile75 (exampleRows.map CallRow.missedVm) = 25 := by
    norm_num [exampleRows, quantile75, sortAsc, insertAsc]
  refine ⟨hgen, ?_, ?_⟩
  · rw [hgen]
    refine ⟨by simp [exampleRows], Or.inr ?_⟩
    rw [hq2]
    norm_num
  · rw [hq1]
    norm_num

/-- The token loop consumes a well-formed script page by page: starting at
request index `i` with accumulator `acc`, it returns the accumulated users
of the whole script and issues one request per page. -/
theorem listUsersLoop_script :
    ∀ (ps : List DirPage) (server : Nat → DirPage) (i : Nat) (acc : List String),
      goodScriptB ps = true →
      (∀ j, j < ps.length → server (i + j) = ps.getD j ⟨[], none⟩) →
      listUsersLoop server ps.length i acc =
        some (acc ++ (ps.map DirPage.users).flatten, i + ps.length) := by
  intro ps
  induction ps with
  | nil => intro server i acc hgood hserver; cases hgood
  | cons p rest ih =>
    intro server i acc hgood hserver
    have hp : server i = p := by
      have h0 := hserver 0 (by simp)
      simpa using h0
    cases rest with
    | nil =>
      have ht : tokenTruthy p.nextPageToken = false := by
        simpa [goodScriptB] using hgood
      show listUsersLoop server (0 + 1) i acc = _
      simp [listUsersLoop, hp, ht]
    | cons q rest2 =>
      have hg := hgood
      simp only [goodScriptB, Bool.and_eq_true] at hg
      have ht : tokenTruthy p.nextPageToken = true := hg.1
      have hgood2 : goodScriptB (q :: rest2) = true := hg.2
      have hserver2 : ∀ j, j < (q :: rest2).length →
          server (i + 1 + j) = (q :: rest2).getD j ⟨[], none⟩ := by
        intro j hj
        have hlt : j + 1 < (p :: q :: rest2).length := by
          simp only [List.length_cons] at hj ⊢
          omega
        have hs := hserver (j + 1) hlt
        have harith : i + (j + 1) = i + 1 + j := by omega
        rw [harith] at hs
        simpa [List.getD_cons_succ] using hs
      show listUsersLoop server ((q :: rest2).length + 1) i acc = _
      rw [listUsersLoop]
      simp only [hp, ht, if_pos]
      rw [ih server (i + 1) (acc ++ p.users) hgood2 hserver2]
      simp only [List.map_cons, List.flatten_cons, ← List.append_assoc]
      congr 2
      simp only [List.length_cons]
      omega

/-- The offset loop against the slice server: from a mid-loop state whose
accumulator holds exactly the entities before `startAt`, it returns the
whole backing list and one request per remaining page. -/
theorem fetchAllLoop_slice :
    ∀ (fuel : Nat) (L : List String) (B startAt total reqs : Nat) (acc : List String),
      0 < B →
      (startAt = 0 ∨ total = L.length) →
      acc ++ L.drop startAt = L →
      0 < (L.drop startAt).length →
      (L.drop startAt).length ≤ fuel →
      fetchAllLoop (sliceServer L B) B fuel startAt acc.length total reqs acc =
        some (Except.ok (L, reqs + ((L.drop startAt).length + B - 1) / B)) := by
  intro fuel
  induction fuel with
  | zero =>
    intro L B startAt total reqs acc hB htot happ hpos hfuel
    omega
  | succ f ih =>
    intro L B startAt total reqs acc hB htot happ hpos hfuel
    have hfetch : jira_fetch_page (sliceServer L B startAt) =
        Except.ok ⟨L.length, (L.drop startAt).take B⟩ := by
      simp [sliceServer, jira_fetch_page]
    simp only [List.length_drop] at hpos hfuel
    have hacclen : acc.length + (L.length - startAt) = L.length := by
      have hl := congrArg List.length happ
      simpa using hl
    have htakelen : ((L.drop startAt).take B).length = min B (L.length - startAt) := by
      simp [List.length_take]
    have htot1 : (if startAt = 0 then L.length else total) = L.length := by
      rcases htot with h | h
      · simp [h]
      · simp [h]
    simp only [fetchAllLoop, hfetch, htot1]
    by_cases hcase : L.length - startAt ≤ B
    · rw [if_pos]
      · have htake : (L.drop startAt).take B = L.drop startAt := by
          apply List.take_of_length_le
          simp only [List.length_drop]
          exact hcase
        rw [htake, happ]
        have hdiv : ((L.drop startAt).length + B - 1) / B = 1 := by
          simp only [List.length_drop]
          apply Nat.div_eq_of_lt_le
          · omega
          · omega
        rw [hdiv]
      · left
        rw [htakelen]
        omega
    · have htakeB : ((L.drop startAt).take B).length = B := by
        rw [htakelen]
        omega
      rw [if_neg]
      · rw [htakeB]
        have hlen2 : (acc ++ (L.drop startAt).take B).length = acc.length + B := by
          simp [htakeB]
        rw [← hlen2]
        have hdropB : L.drop (startAt + B) = (L.drop startAt).drop B := by
          rw [List.drop_drop]
        have happ2 : (acc ++ (L.drop startAt).take B) ++ L.drop (startAt + B) = L := by
          rw [hdropB, List.append_assoc, List.take_append_drop, happ]
        have hpos2 : 0 < (L.drop (startAt + B)).length := by
          simp only [List.length_drop]
          omega
        have hfuel2 : (L.drop (startAt + B)).length ≤ f := by
          simp only [List.length_drop]
          omega
        have hrec := ih L B (startAt + B) L.length (reqs + 1)
          (acc ++ (L.drop startAt).take B) hB (Or.inr rfl) happ2 hpos2 hfuel2
        rw [hrec]
        have hdivstep : ((L.drop startAt).length + B - 1) / B =
            ((L.drop (startAt + B)).length + B - 1) / B + 1 := by
          simp only [List.length_drop]
          have h1 : L.length - startAt + B - 1 = (L.length - (startAt + B) + B - 1) + B := by
            omega
          rw [h1, Nat.add_div_right _ hB]
        rw [hdivstep]
        generalize ((L.drop (startAt + B)).length + B - 1) / B = d
        simp only [Option.some.injEq, Except.ok.injEq, Prod.mk.injEq, true_and]
        omega
      · rw [htakeB]
        omega

/-- C2: for a script of N pages each carrying a continuation token except
the last, the token-based directory paginator returns exactly the
concatenation of all pages' user lists in order and issues exactly N
requests; and the offset-based issue-tracker paginator over a backing
list served in batches of B returns exactly that list in order and issues
exactly one request per served page. -/
theorem c2_pagination :
    (∀ (pages : List DirPage) (server : Nat → DirPage),
        goodScriptB pages = true →
        (∀ j, j < pages.length → server j = pages.getD j ⟨[], none⟩) →
        listUsersLoop server pages.length 0 [] =
          some ((pages.map DirPage.users).flatten, pages.length)) ∧
    (∀ (L : List String) (B : Nat), 0 < B →
        fetch_all_issues (sliceServer L B) B (L.length + 1) =
          some (Except.ok (L, numPages L B))) := by
  constructor
  · intro pages server hgood hserver
    have h := listUsersLoop_script pages server 0 [] hgood (by simpa using hserver)
    simpa using h
  · intro L B hB
    cases L with
    | nil => simp [fetch_all_issues, fetchAllLoop, sliceServer, jira_fetch_page, numPages]
    | cons a as =>
      have h := fetchAllLoop_slice ((a :: as).length + 1) (a :: as) B 0 0 0 []
        hB (Or.inl rfl) (by simp) (by simp) (by simp)
      simp only [List.length_nil] at h
      rw [show fetch_all_issues (sliceServer (a :: as) B) B ((a :: as).length + 1) =
          fetchAllLoop (sliceServer (a :: as) B) B ((a :: as).length + 1) 0 0 0 0 [] from rfl]
      rw [h]
      have : numPages (a :: as) B = ((a :: as).length + B - 1) / B := by
        simp [numPages]
      rw [this]
      simp

/-- C2 witness: the two parts of `c2_pagination` applied at a concrete
two-page token script and a concrete three-element backing list with
batch size 2. -/
theorem c2_pagination_witness :
    listUsersLoop (fun j => pagesW.getD j ⟨[], none⟩) 2 0 [] = some (["u1", "u2"], 2) ∧
    fetch_all_issues (sliceServer ["a", "b", "c"] 2) 2 4 =
      some (Except.ok (["a", "b", "c"], 2)) := by
  constructor
  · exact c2_pagination.1 pagesW (fun j => pagesW.getD j ⟨[], none⟩)
      (by decide) (fun j hj => rfl)
  · exact c2_pagination.2 ["a", "b", "c"] 2 (by decide)


/-- Dict lookup after a defaultdict update: the updated key maps to `f` of
its previous value (or of the initial entry), other keys are unchanged. -/
theorem lookupA_updStats (k k1 : String) (f : UserStat → UserStat) :
    ∀ m : List (String × UserStat),
      lookupA k (updStats k1 f m) =
        if k1 = k then some (f ((lookupA k m).getD initStat)) else lookupA k m := by
  intro m
  induction m with
  | nil => by_cases h : k1 = k <;> simp [updStats, lookupA, h]
  | cons e rest ih =>
    obtain ⟨k2, s⟩ := e
    by_cases h21 : k2 = k1
    · by_cases h2k : k2 = k
      · have hk : k1 = k := h21.symm.trans h2k
        simp [updStats, lookupA, h21, h2k, hk]
      · have hk : ¬ k1 = k := fun h => h2k (h21.trans h)
        simp [updStats, lookupA, h21, h2k, hk]
    · by_cases h2k : k2 = k
      · have hk2 : ¬ k1 = k2 := fun h => h21 h.symm
        subst h2k
        simp [updStats, lookupA, h21, hk2]
      · simp [updStats, lookupA, h21, h2k, ih]

/-- Dict lookup commutes with the finalisation map. -/
theorem lookupA_map_finalize (k : String) :
    ∀ m : List (String × UserStat),
      lookupA k (m.map (fun e => (e.1, finalizeStat e.2))) =
        (lookupA k m).map finalizeStat := by
  intro m
  induction m with
  | nil => rfl
  | cons e rest ih =>
    obtain ⟨k2, s⟩ := e
    by_cases h : k2 = k <;> simp [lookupA, h, ih]

/-- The accumulation loop, per key: the entry of `k` is exactly the fold
of the issues relevant to `k`, present iff at least one such issue
exists. -/
theorem lookupA_foldl (today : SimpleDate) (cm cy : Nat) (k : String) :
    ∀ (issues : List Issue) (m : List (String × UserStat)),
      lookupA k (issues.foldl (statsStep today cm cy) m) =
        match lookupA k m with
        | some s => some ((relevantIssues k issues).foldl (bucketStep today cm cy) s)
        | none =>
          if (relevantIssues k issues).isEmpty then none
          else some ((relevantIssues k issues).foldl (bucketStep today cm cy) initStat) := by
  intro issues
  induction issues with
  | nil =>
    intro m
    cases h : lookupA k m <;> simp [relevantIssues, h]
  | cons i rest ih =>
    intro m
    simp only [List.foldl_cons]
    by_cases hU : i.assignee = "Unassigned"
    · have hstep : statsStep today cm cy m i = m := by simp [statsStep, hU]
      have hrel : relevantIssues k (i :: rest) = relevantIssues k rest := by
        simp [relevantIssues, List.filter_cons, hU]
      rw [hstep, hrel]
      exact ih m
    · by_cases hik : i.assignee = k
      · have hkU : ¬ k = "Unassigned" := fun h => hU (hik.trans h)
        have hstep : statsStep today cm cy m i =
            updStats k (fun s => bucketStep today cm cy s i) m := by
          unfold statsStep
          rw [if_neg hU, hik]
        have hrel : relevantIssues k (i :: rest) = i :: relevantIssues k rest := by
          simp [relevantIssues, List.filter_cons, hik, hkU]
        rw [hstep, hrel, ih, lookupA_updStats, if_pos rfl]
        cases h : lookupA k m with
        | some s => simp [List.foldl_cons]
        | none => simp [List.foldl_cons]
      · have hstep : statsStep today cm cy m i =
            updStats i.assignee (fun s => bucketStep today cm cy s i) m := by
          simp [statsStep, hU]
        have hrel : relevantIssues k (i :: rest) = relevantIssues k rest := by
          simp [relevantIssues, List.filter_cons, hik]
        rw [hstep, hrel, ih, lookupA_updStats, if_neg hik]

/-- Folding a batch of issues adds its length to `total` and the count of
each bucket/overdue test to the corresponding counter. -/
theorem foldl_bucketStep_fields (today : SimpleDate) (cm cy : Nat) :
    ∀ (l : List Issue) (s : UserStat),
      ((l.foldl (bucketStep today cm cy) s).total = s.total + l.length) ∧
      ((l.foldl (bucketStep today cm cy) s).completed = s.completed + l.countP isDoneB) ∧
      ((l.foldl (bucketStep today cm cy) s).in_progress =
        s.in_progress + l.countP inProgressBucketB) ∧
      ((l.foldl (bucketStep today cm cy) s).todo = s.todo + l.countP todoBucketB) ∧
      ((l.foldl (bucketStep today cm cy) s).overdue_tasks =
        s.overdue_tasks + l.countP (overdueB today)) := by
  intro l
  induction l with
  | nil => intro s; simp
  | cons i rest ih =>
    intro s
    simp only [List.foldl_cons, List.countP_cons, List.length_cons]
    obtain ⟨h1, h2, h3, h4, h5⟩ := ih (bucketStep today cm cy s i)
    refine ⟨?_, ?_, ?_, ?_, ?_⟩
    · rw [h1]; simp [bucketStep]; omega
    · rw [h2]
      by_cases hd : isDoneB i = true <;> simp [bucketStep, hd] <;> omega
    · rw [h3]
      by_cases hp : inProgressBucketB i = true <;> simp [bucketStep, hp] <;> omega
    · rw [h4]
      by_cases ht : todoBucketB i = true <;> simp [bucketStep, ht] <;> omega
    · rw [h5]
      by_cases ho : overdueB today i = true <;> simp [bucketStep, ho] <;> omega

/-- The three buckets are exhaustive and mutually exclusive: their counts
sum to the list length. -/
theorem countP_buckets (l : List Issue) :
    l.countP isDoneB + l.countP inProgressBucketB + l.countP todoBucketB = l.length := by
  induction l with
  | nil => rfl
  | cons i rest ih =>
    simp only [List.countP_cons, List.length_cons]
    by_cases hd : isDoneB i = true <;> by_cases hp : hasProgressB i = true <;>
      simp [inProgressBucketB, todoBucketB, hd, hp] <;> omega

/-- Finalisation touches only the two ratio fields. -/
theorem finalizeStat_counts (s : UserStat) :
    (finalizeStat s).total = s.total ∧ (finalizeStat s).completed = s.completed ∧
    (finalizeStat s).in_progress = s.in_progress ∧ (finalizeStat s).todo = s.todo ∧
    (finalizeStat s).overdue_tasks = s.overdue_tasks := by
  simp only [finalizeStat]
  split_ifs <;> simp

/-- Finalisation sets the completion rate from the final totals. -/
theorem finalizeStat_rate (s : UserStat) (h : 0 < s.total) :
    (finalizeStat s).completion_rate =
      round1 ((s.completed : ℚ) / (s.total : ℚ) * 100) := by
  simp only [finalizeStat, if_pos h]
  split_ifs <;> simp

/-- A present stats entry is the finalised fold of its relevant issues. -/
theorem lookupA_user_stats (today : SimpleDate) (cm cy : Nat) (issues : List Issue)
    (k : String) (st : UserStat)
    (h : lookupA k (calculate_user_stats today cm cy issues) = some st) :
    (relevantIssues k issues).isEmpty = false ∧
    st = finalizeStat ((relevantIssues k issues).foldl (bucketStep today cm cy) initStat) := by
  unfold calculate_user_stats at h
  rw [lookupA_map_finalize, lookupA_foldl] at h
  simp only [lookupA] at h
  by_cases hemp : (relevantIssues k issues).isEmpty = true
  · rw [if_pos hemp] at h
    simp at h
  · rw [if_neg hemp] at h
    rw [Option.map_some'] at h
    refine ⟨Bool.not_eq_true _ ▸ hemp, ?_⟩
    exact (Option.some.injEq _ _ ▸ h).symm


/-- Evaluation of the aggregation example: the stats entry of `A`. -/
theorem user_stats_example_eval :
    lookupA "A" (calculate_user_stats ⟨2024, 6, 15⟩ 6 2024 exampleIssues) = some exSt := by
  unfold calculate_user_stats
  rw [lookupA_map_finalize]
  rw [show lookupA "A" (exampleIssues.foldl (statsStep ⟨2024, 6, 15⟩ 6 2024) []) =
      some exSt0 from by decide]
  rw [Option.map_some']
  congr 1
  simp [finalizeStat, exSt0, exSt]
  norm_num [round1, roundHalfEven, floorQ]

/-- C5: every record of a group lands in exactly one of the three buckets
(done / contains-progress / otherwise), so for every present stats entry
the three bucket counts sum to the group total, each bucket count is the
count of records passing its test, and the completion rate is
`completed/total × 100` rounded to one decimal (0 when the total is 0);
in particular 4 records for `A` with 3 in `Done` and 1 in `To Do` yield
completion_rate 75.0, completed 3, todo 1, in_progress 0. -/
theorem c5_bucket_aggregation :
    (∀ (today : SimpleDate) (cm cy : Nat) (issues : List Issue) (k : String) (st : UserStat),
        lookupA k (calculate_user_stats today cm cy issues) = some st →
        st.completed + st.in_progress + st.todo = st.total ∧
        st.completed = (relevantIssues k issues).countP isDoneB ∧
        st.in_progress = (relevantIssues k issues).countP inProgressBucketB ∧
        st.todo = (relevantIssues k issues).countP todoBucketB ∧
        st.completion_rate =
          (if st.total = 0 then 0
           else round1 ((st.completed : ℚ) / (st.total : ℚ) * 100))) ∧
    lookupA "A" (calculate_user_stats ⟨2024, 6, 15⟩ 6 2024 exampleIssues) = some exSt := by
  refine ⟨?_, user_stats_example_eval⟩
  intro today cm cy issues k st h
  obtain ⟨hemp, hst⟩ := lookupA_user_stats today cm cy issues k st h
  obtain ⟨h1, h2, h3, h4, h5⟩ :=
    foldl_bucketStep_fields today cm cy (relevantIssues k issues) initStat
  obtain ⟨f1, f2, f3, f4, f5⟩ :=
    finalizeStat_counts ((relevantIssues k issues).foldl (bucketStep today cm cy) initStat)
  have hlen : 0 < (relevantIssues k issues).length := by
    cases hrel : relevantIssues k issues with
    | nil => rw [hrel] at hemp; simp at hemp
    | cons a as => simp [hrel]
  have htot : st.total = (relevantIssues k issues).length := by
    rw [hst, f1, h1]; simp [initStat]
  have hcomp : st.completed = (relevantIssues k issues).countP isDoneB := by
    rw [hst, f2, h2]; simp [initStat]
  have hprog : st.in_progress = (relevantIssues k issues).countP inProgressBucketB := by
    rw [hst, f3, h3]; simp [initStat]
  have htodo : st.todo = (relevantIssues k issues).countP todoBucketB := by
    rw [hst, f4, h4]; simp [initStat]
  refine ⟨?_, hcomp, hprog, htodo, ?_⟩
  · rw [hcomp, hprog, htodo, htot]
    exact countP_buckets (relevantIssues k issues)
  · have hpos :
        0 < ((relevantIssues k issues).foldl (bucketStep today cm cy) initStat).total := by
      rw [h1]
      have h0 : initStat.total = 0 := rfl
      omega
    rw [hst, f1, f2, finalizeStat_rate _ hpos, if_neg (Nat.pos_iff_ne_zero.mp hpos)]

/-- C5 witness: the general part of `c5_bucket_aggregation` applied to its
own example entry. -/
theorem c5_bucket_aggregation_witness :
    exSt.completed + exSt.in_progress + exSt.todo = exSt.total ∧
    exSt.completed = (relevantIssues "A" exampleIssues).countP isDoneB ∧
    exSt.in_progress = (relevantIssues "A" exampleIssues).countP inProgressBucketB ∧
    exSt.todo = (relevantIssues "A" exampleIssues).countP todoBucketB ∧
    exSt.completion_rate =
      (if exSt.total = 0 then 0
       else round1 ((exSt.completed : ℚ) / (exSt.total : ℚ) * 100)) :=
  c5_bucket_aggregation.1 ⟨2024, 6, 15⟩ 6 2024 exampleIssues "A" exSt
    c5_bucket_aggregation.2

/-- C6: both aggregators count a record as overdue exactly when it has a
due date strictly before today and is not in the completed bucket: every
present per-group entry's overdue counter equals the count of its
relevant records passing the overdue test, the overall counter equals the
corpus-wide count, a record due yesterday in `In Progress` is overdue,
and the identical record in `Done` is not. -/
theorem c6_overdue_rule :
    (∀ (today : SimpleDate) (cm cy : Nat) (issues : List Issue) (k : String) (st : UserStat),
        lookupA k (calculate_user_stats today cm cy issues) = some st →
        st.overdue_tasks = (relevantIssues k issues).countP (overdueB today)) ∧
    (∀ (today : SimpleDate) (issues : List Issue),
        (calculate_overall_stats today issues).overdue = issues.countP (overdueB today)) ∧
    (calculate_overall_stats ⟨2024, 6, 15⟩
        [⟨"A", "In Progress", some ⟨2024, 6, 14⟩, none, 0⟩]).overdue = 1 ∧
    (calculate_overall_stats ⟨2024, 6, 15⟩
        [⟨"A", "Done", some ⟨2024, 6, 14⟩, none, 0⟩]).overdue = 0 := by
  refine ⟨?_, fun today issues => rfl, by decide, by decide⟩
  intro today cm cy issues k st h
  obtain ⟨hemp, hst⟩ := lookupA_user_stats today cm cy issues k st h
  obtain ⟨h1, h2, h3, h4, h5⟩ :=
    foldl_bucketStep_fields today cm cy (relevantIssues k issues) initStat
  obtain ⟨f1, f2, f3, f4, f5⟩ :=
    finalizeStat_counts ((relevantIssues k issues).foldl (bucketStep today cm cy) initStat)
  rw [hst, f5, h5]
  simp [initStat]

/-- C6 witness: the hypothesis-bearing part of `c6_overdue_rule` applied
to the example entry. -/
theorem c6_overdue_rule_witness :
    exSt.overdue_tasks =
      (relevantIssues "A" exampleIssues).countP (overdueB ⟨2024, 6, 15⟩) :=
  c6_overdue_rule.1 ⟨2024, 6, 15⟩ 6 2024 exampleIssues "A" exSt user_stats_example_eval

end MinScrip